import Mathlib

/-!
Verification of the UT-Registration-Plus presentational components:
shallow embeddings of the CalendarHeader responsive state machine, the
SortableList drag-to-reorder logic, and the PopupCourseBlock copy
debounce, settings-subscription lifecycle and render conditions,
together with theorems settling the specification's claims.
-/

namespace UTRP

/-! ### CalendarHeader: responsive display-mode state machine

Embeds the `ResizeObserver` callback of
`src/views/components/calendar/CalendarHeader.tsx` (lines 54-85).
-/

/-- The header's display-mode state: the `useState` pair
`{ isDisplayingPrimaryActionsText, isDisplayingSecondaryActionsText }`. -/
structure HeaderState where
  isDisplayingPrimaryActionsText : Bool
  isDisplayingSecondaryActionsText : Bool
deriving DecidableEq, Repr

/-- Threshold constant `SECONDARY_ACTIONS_WITH_TEXT_WIDTH = 274` (px). -/
def SECONDARY_ACTIONS_WITH_TEXT_WIDTH : Int := 274

/-- Threshold constant `PRIMARY_ACTION_WITH_TEXT_WIDTH = 405` (px). -/
def PRIMARY_ACTION_WITH_TEXT_WIDTH : Int := 405

/-- Threshold constant `PRIMARY_ACTION_WITHOUT_TEXT_WIDTH = 160` (px). -/
def PRIMARY_ACTION_WITHOUT_TEXT_WIDTH : Int := 160

/-- One step of the ResizeObserver callback of `CalendarHeader`, applied to
the already-rounded integer `width`. The four `if` blocks of the source are
translated in order; each source block ends in `return`, so the first
matching condition wins, and when none matches `setIsDisplayingText` is not
called and the state is unchanged. -/
def headerResizeStep (s : HeaderState) (width : Int) : HeaderState :=
  if width < SECONDARY_ACTIONS_WITH_TEXT_WIDTH ∧
      s.isDisplayingPrimaryActionsText ∧ s.isDisplayingSecondaryActionsText then
    ⟨false, true⟩
  else if s.isDisplayingSecondaryActionsText ∧
      width - SECONDARY_ACTIONS_WITH_TEXT_WIDTH ≥
        PRIMARY_ACTION_WITH_TEXT_WIDTH - PRIMARY_ACTION_WITHOUT_TEXT_WIDTH then
    ⟨true, true⟩
  else if width < SECONDARY_ACTIONS_WITH_TEXT_WIDTH ∧
      s.isDisplayingSecondaryActionsText then
    ⟨false, false⟩
  else if width ≥ SECONDARY_ACTIONS_WITH_TEXT_WIDTH ∧
      ¬ s.isDisplayingSecondaryActionsText then
    ⟨false, true⟩
  else s

/-- The four transition rules exactly as the specification words them
(section 4.3), with `S = 274`, `P_on = 405`, `P_off = 160`: used to compare
the source's callback against the spec. -/
def specHeaderStep (s : HeaderState) (w : Int) : HeaderState :=
  if s = ⟨true, true⟩ ∧ w < 274 then ⟨false, true⟩
  else if s.isDisplayingSecondaryActionsText ∧ w - 274 ≥ 405 - 160 then ⟨true, true⟩
  else if s.isDisplayingSecondaryActionsText ∧ w < 274 then ⟨false, false⟩
  else if ¬ s.isDisplayingSecondaryActionsText ∧ w ≥ 274 then ⟨false, true⟩
  else s

/-- Folding the resize step over a sequence of observed (rounded) widths,
starting from a given state. -/
def runHeader (s : HeaderState) (ws : List Int) : HeaderState :=
  ws.foldl headerResizeStep s

/-- JavaScript `Math.round` on a real measured width, modelled on the
rationals: rounds to the nearest integer, halves rounding up
(`Math.round(x) = ⌊x + 1/2⌋`). -/
def mathRound (q : ℚ) : Int := ⌊q + 1 / 2⌋

/-- The full observation step of the callback: the measured fractional
`contentRect.width` is first rounded (`const width = Math.round(entry.contentRect.width)`),
then the transition rules run on the rounded value. -/
def headerObserve (s : HeaderState) (contentRectWidth : ℚ) : HeaderState :=
  headerResizeStep s (mathRound contentRectWidth)

/-- The initial header state set by `useState`: both texts displayed. -/
def initialHeaderState : HeaderState := ⟨true, true⟩

theorem headerResizeStep_preserves_not_tf (s : HeaderState) (w : Int)
    (h : s ≠ ⟨true, false⟩) : headerResizeStep s w ≠ ⟨true, false⟩ := by
  unfold headerResizeStep
  split
  · simp
  · split
    · simp
    · split
      · simp
      · split
        · simp
        · exact h

/-- **C1.** For every header state among (true,true), (false,true),
(false,false) and every rounded width `w`, the source's resize step agrees
with the spec's four ordered first-match-wins rules. -/
theorem c1_header_step_matches_spec (s : HeaderState) (w : Int)
    (h : s = ⟨true, true⟩ ∨ s = ⟨false, true⟩ ∨ s = ⟨false, false⟩) :
    headerResizeStep s w = specHeaderStep s w := by
  rcases h with h | h | h <;> subst h <;>
    simp only [headerResizeStep, specHeaderStep, SECONDARY_ACTIONS_WITH_TEXT_WIDTH,
      PRIMARY_ACTION_WITH_TEXT_WIDTH, PRIMARY_ACTION_WITHOUT_TEXT_WIDTH,
      HeaderState.mk.injEq, and_true, true_and, and_false, false_and, not_true,
      not_false_iff, Bool.true_eq_false, Bool.false_eq_true, and_self]

/-- Witness for C1: from state (false,true) at width 600 both the source
step and the spec rules give (true,true). -/
theorem c1_header_step_matches_spec_witness :
    headerResizeStep ⟨false, true⟩ 600 = specHeaderStep ⟨false, true⟩ 600 :=
  c1_header_step_matches_spec ⟨false, true⟩ 600 (Or.inr (Or.inl rfl))

/-- **C2.** Starting from the initial state (true,true), every sequence of
observed widths leaves the header in one of the three reachable states:
(true,false) is unreachable. -/
theorem c2_header_tf_unreachable (ws : List Int) :
    runHeader initialHeaderState ws = ⟨true, true⟩ ∨
    runHeader initialHeaderState ws = ⟨false, true⟩ ∨
    runHeader initialHeaderState ws = ⟨false, false⟩ := by
  have key : ∀ (l : List Int) (s : HeaderState), s ≠ ⟨true, false⟩ →
      l.foldl headerResizeStep s ≠ ⟨true, false⟩ := by
    intro l
    induction l with
    | nil => intro s hs; simpa using hs
    | cons w rest ih =>
        intro s hs
        exact ih _ (headerResizeStep_preserves_not_tf s w hs)
  have h := key ws initialHeaderState (by simp [initialHeaderState])
  rcases hr : runHeader initialHeaderState ws with ⟨p, q⟩
  rw [runHeader] at *
  rw [hr] at h
  cases p <;> cases q <;> simp_all

/-- **C10.** The transition taken for an observed fractional width depends
only on `Math.round` of that width, and a measured width of 273.5 rounds to
274, hence satisfies `w ≥ 274` and not `w < 274`. -/
theorem c10_round_before_rules :
    (∀ (s : HeaderState) (w₁ w₂ : ℚ), mathRound w₁ = mathRound w₂ →
      headerObserve s w₁ = headerObserve s w₂) ∧
    mathRound (547 / 2) = 274 ∧
    ¬ mathRound (547 / 2) < 274 ∧
    headerObserve ⟨false, false⟩ (547 / 2) = ⟨false, true⟩ := by
  refine ⟨?_, ?_, ?_, ?_⟩
  · intro s w₁ w₂ h
    simp only [headerObserve, h]
  · norm_num [mathRound]
  · norm_num [mathRound]
  · norm_num [headerObserve, mathRound]
    decide

/-- Witness for C10: instantiates the first conjunct at two concrete widths
that round to the same integer. -/
theorem c10_round_before_rules_witness :
    headerObserve ⟨true, true⟩ (1097 / 4) = headerObserve ⟨true, true⟩ (547 / 2) :=
  c10_round_before_rules.1 ⟨true, true⟩ (1097 / 4) (547 / 2) (by norm_num [mathRound])

/-! ### SortableList: drag-to-reorder

Embeds the `DndContext` handlers of `SortableList` (`src/unnamed/part_000`,
lines 79-97) together with the two library helpers they call:
`Array.prototype.findIndex` and `@dnd-kit/sortable`'s `arrayMove`.
-/

/-- A sortable item: any entity with a unique identifier (`BaseItem` of the
source, `id: UniqueIdentifier`); the carried value is abstract. -/
structure Item (α : Type) where
  id : Nat
  value : α
deriving DecidableEq, Repr

/-- JavaScript `Array.prototype.findIndex`: index of the first element
satisfying the predicate, `-1` when none does. -/
def findIndex {α : Type} (p : α → Bool) : List α → Int
  | [] => -1
  | x :: xs =>
      if p x then 0
      else
        let r := findIndex p xs
        if r < 0 then -1 else r + 1

/-- Resolution of a `splice` start argument as JavaScript does it: a
negative start counts from the end (clamped below at 0), a nonnegative one
is clamped above at the length. -/
def spliceStart (start : Int) (len : Nat) : Nat :=
  if start < 0 then ((len : Int) + start).toNat else min start.toNat len

/-- The `arrayMove` helper of `@dnd-kit/sortable` (external library code,
reproduced from its implementation):
`newArray.splice(to < 0 ? newArray.length + to : to, 0, newArray.splice(from, 1)[0])`
on a copy of the array — remove the element at `from`, then insert it at
`to` (resolved against the shortened array). When `from` resolves past the
end (impossible for indices returned by a successful `findIndex`), the
source would insert `undefined`, which has no counterpart here; that case
is modelled as the unchanged list. -/
def arrayMove {α : Type} (l : List α) (fromIdx toIdx : Int) : List α :=
  let f := spliceStart fromIdx l.length
  match l.get? f with
  | some x =>
      let l' := l.eraseIdx f
      let t := spliceStart (if toIdx < 0 then (l'.length : Int) + toIdx else toIdx) l'.length
      l'.insertIdx t x
  | none => l

/-- The component state of `SortableList` that the drag handlers touch:
`items` (the held sequence), `active` (id of the item being dragged) and
`isDragging`. -/
structure SortableState (α : Type) where
  items : List (Item α)
  active : Option Nat
  isDragging : Bool
deriving DecidableEq, Repr

/-- The drag-end event: the id of the active item, and the id of the item
dropped over, when there is one. -/
structure DragEndEvent where
  activeId : Nat
  overId : Option Nat
deriving DecidableEq, Repr

/-- The `onDragStart` handler: `setIsDragging(true); setActive(active)`. -/
def onDragStart {α : Type} (s : SortableState α) (activeId : Nat) : SortableState α :=
  { s with isDragging := true, active := some activeId }

/-- The `onDragEnd` handler. Returns the updated state together with the
list of payloads passed to `onChange` (in order), so that how many times
`onChange` fired, and with what, is part of the result. -/
def onDragEnd {α : Type} (s : SortableState α) (ev : DragEndEvent) :
    SortableState α × List (List (Item α)) :=
  match ev.overId with
  | some oid =>
      if ev.activeId ≠ oid then
        let activeIndex := findIndex (fun it => it.id == ev.activeId) s.items
        let overIndex := findIndex (fun it => it.id == oid) s.items
        let reorderedItems := arrayMove s.items activeIndex overIndex
        ({ items := reorderedItems, active := none, isDragging := false },
          [reorderedItems])
      else ({ s with isDragging := false, active := none }, [])
  | none => ({ s with isDragging := false, active := none }, [])

/-- The `onDragCancel` handler: `setIsDragging(false); setActive(null)`;
the held items are untouched and nothing is emitted. -/
def onDragCancel {α : Type} (s : SortableState α) :
    SortableState α × List (List (Item α)) :=
  ({ s with isDragging := false, active := none }, [])

theorem findIndex_eq_of_nodup {α : Type} (l : List (Item α)) (a : Nat) (i : Nat)
    (hnd : (l.map Item.id).Nodup) (hi : i < l.length)
    (hid : (l.get ⟨i, hi⟩).id = a) :
    findIndex (fun it => it.id == a) l = (i : Int) := by
  induction l generalizing i with
  | nil => simp at hi
  | cons x xs ih =>
      simp only [List.map_cons, List.nodup_cons, List.mem_map] at hnd
      cases i with
      | zero =>
          simp only [List.get] at hid
          simp [findIndex, hid]
      | succ j =>
          have hj : j < xs.length := by simpa using hi
          have hidj : (xs.get ⟨j, hj⟩).id = a := by simpa using hid
          have hxa : ¬ x.id = a := by
            intro hcontra
            exact hnd.1 ⟨xs.get ⟨j, hj⟩, List.get_mem xs j hj, by rw [hidj, hcontra]⟩
          have hr := ih j hnd.2 hj hidj
          simp only [findIndex, beq_iff_eq, hxa, if_false, hr]
          rw [if_neg (by omega)]
          omega

theorem arrayMove_eq_erase_insert {α : Type} (l : List α) (i j : Nat)
    (hi : i < l.length) (hj : j < l.length) :
    arrayMove l (i : Int) (j : Int) =
      (l.eraseIdx i).insertIdx j (l.get ⟨i, hi⟩) := by
  have hfi : spliceStart (i : Int) l.length = i := by
    simp only [spliceStart]
    rw [if_neg (by omega)]
    omega
  have hget : l.get? i = some (l.get ⟨i, hi⟩) := List.get?_eq_get hi
  have hlen' : (l.eraseIdx i).length = l.length - 1 := by
    rw [List.length_eraseIdx, if_pos hi]
  have htj : spliceStart (if (j : Int) < 0 then ((l.eraseIdx i).length : Int) + j else j)
      (l.eraseIdx i).length = min j (l.length - 1) := by
    rw [if_neg (by omega)]
    simp only [spliceStart]
    rw [if_neg (by omega), hlen']
    omega
  simp only [arrayMove, hfi, hget, htj]
  have : min j (l.length - 1) = j ∨ (min j (l.length - 1) = l.length - 1 ∧ j = l.length - 1) := by
    omega
  rcases this with h | ⟨h, hj2⟩
  · rw [h]
  · rw [h, hj2]

/-- **C3.** With items carrying pairwise-distinct ids, the active item at
index `i` and the over item at a different id at index `j`: the drag-end
handler produces exactly the sequence obtained by removing the item at `i`
and inserting it at `j`, and calls `onChange` exactly once with exactly
that sequence; a drag ending with no target, or over the active item
itself, calls `onChange` zero times and leaves the held sequence
unchanged. -/
theorem c3_drag_end_move_semantics {α : Type} [DecidableEq α] (s : SortableState α)
    (a o : Nat) (i j : Nat)
    (hnd : (s.items.map Item.id).Nodup)
    (hi : i < s.items.length) (hj : j < s.items.length)
    (ha : (s.items.get ⟨i, hi⟩).id = a)
    (ho : (s.items.get ⟨j, hj⟩).id = o)
    (hne : a ≠ o) :
    ((onDragEnd s ⟨a, some o⟩).1.items =
        (s.items.eraseIdx i).insertIdx j (s.items.get ⟨i, hi⟩) ∧
      (onDragEnd s ⟨a, some o⟩).2 =
        [(s.items.eraseIdx i).insertIdx j (s.items.get ⟨i, hi⟩)]) ∧
    ((onDragEnd s ⟨a, none⟩).1.items = s.items ∧ (onDragEnd s ⟨a, none⟩).2 = []) ∧
    ((onDragEnd s ⟨a, some a⟩).1.items = s.items ∧ (onDragEnd s ⟨a, some a⟩).2 = []) := by
  have hfa := findIndex_eq_of_nodup s.items a i hnd hi ha
  have hfo := findIndex_eq_of_nodup s.items o j hnd hj ho
  have hmove := arrayMove_eq_erase_insert s.items i j hi hj
  refine ⟨?_, ?_, ?_⟩
  · simp only [onDragEnd, hne, ne_eq, not_false_iff, if_true, hfa, hfo, hmove]
    exact ⟨trivial, trivial⟩
  · simp [onDragEnd]
  · simp [onDragEnd]

/-- Witness for C3 on a concrete three-item list: dragging the item with id
1 (index 0) over the item with id 3 (index 2) moves it to the end, with one
`onChange` call carrying that sequence. -/
theorem c3_drag_end_move_semantics_witness :
    ((onDragEnd (⟨[⟨1, 10⟩, ⟨2, 20⟩, ⟨3, 30⟩], none, false⟩ : SortableState Nat)
        ⟨1, some 3⟩).1.items = [⟨2, 20⟩, ⟨3, 30⟩, ⟨1, 10⟩] ∧
      (onDragEnd (⟨[⟨1, 10⟩, ⟨2, 20⟩, ⟨3, 30⟩], none, false⟩ : SortableState Nat)
        ⟨1, some 3⟩).2 = [[⟨2, 20⟩, ⟨3, 30⟩, ⟨1, 10⟩]]) := by
  have h := (c3_drag_end_move_semantics
    (⟨[⟨1, 10⟩, ⟨2, 20⟩, ⟨3, 30⟩], none, false⟩ : SortableState Nat)
    1 3 0 2 (by decide) (by decide) (by decide) (by decide) (by decide) (by decide)).1
  simpa using h

/-- **C6.** Cancelling an in-progress drag restores the exact pre-drag
state — when the drag started from an idle component, the state after
`onDragStart` then `onDragCancel` equals the original state — and emits no
`onChange` call. -/
theorem c6_drag_cancel_reverts {α : Type} [DecidableEq α] (s : SortableState α)
    (aid : Nat) (hactive : s.active = none) (hdrag : s.isDragging = false) :
    onDragCancel (onDragStart s aid) = (s, []) := by
  cases s
  simp only [onDragStart, onDragCancel] at *
  subst hactive hdrag
  rfl

/-- Witness for C6 at a concrete idle state and active id. -/
theorem c6_drag_cancel_reverts_witness :
    onDragCancel (onDragStart (⟨[⟨1, 10⟩, ⟨2, 20⟩], none, false⟩ : SortableState Nat) 2) =
      ((⟨[⟨1, 10⟩, ⟨2, 20⟩], none, false⟩ : SortableState Nat), []) :=
  c6_drag_cancel_reverts _ 2 rfl rfl

/-! ### PopupCourseBlock: copy control

Embeds `handleCopy` of
`src/views/components/common/PopupCourseBlock.tsx` (lines 87-98): the
500 ms rapid-copy guard (`lastCopyTime` ref), the clipboard write, the
`isCopied` flag and the `setTimeout(() => setIsCopied(false), 500)`.
Times are naturals (milliseconds, as from `Date.now()`); JavaScript's
`now - lastCopyTime.current < 500` agrees with truncated natural
subtraction here, since a negative difference and a truncated-to-zero one
are both below 500.
-/

/-- The copy-related component state: the `lastCopyTime` ref, the
`isCopied` flag, and the multiset of pending `setTimeout` expiry times for
reverting `isCopied`. -/
structure CopyState where
  lastCopyTime : Nat
  isCopied : Bool
  pendingReverts : List Nat
deriving DecidableEq, Repr

/-- The `handleCopy` handler invoked at time `now`, returning the updated
state and the list of strings written to the clipboard (empty when the
guard fires). A guarded invocation returns before touching anything; a
successful one records `now`, writes the formatted unique id, sets
`isCopied` and schedules its revert 500 ms later. -/
def handleCopy (s : CopyState) (now : Nat) (formattedUniqueId : String) :
    CopyState × List String :=
  if now - s.lastCopyTime < 500 then (s, [])
  else
    ({ lastCopyTime := now, isCopied := true,
       pendingReverts := s.pendingReverts ++ [now + 500] }, [formattedUniqueId])

/-- Firing of a scheduled revert at time `t`: when a pending
`setTimeout(() => setIsCopied(false), 500)` expires at `t`, it sets
`isCopied` to `false` and is consumed; at a time with no pending timer
nothing happens. -/
def fireRevert (s : CopyState) (t : Nat) : CopyState :=
  if t ∈ s.pendingReverts then
    { s with isCopied := false, pendingReverts := s.pendingReverts.erase t }
  else s

/-- **C4.** If a copy invocation at `t₁` succeeds (the guard does not
fire), then a second invocation at `t₂` strictly less than 500 ms later is
a complete no-op: it writes nothing to the clipboard, schedules nothing and
changes no state, while the first invocation wrote exactly once. -/
theorem c4_rapid_copy_guard (s : CopyState) (t₁ t₂ : Nat) (uid : String)
    (hfirst : ¬ t₁ - s.lastCopyTime < 500) (hrapid : t₂ - t₁ < 500) :
    (handleCopy s t₁ uid).2 = [uid] ∧
    handleCopy (handleCopy s t₁ uid).1 t₂ uid = ((handleCopy s t₁ uid).1, []) := by
  constructor
  · simp [handleCopy, hfirst]
  · have h1 : (handleCopy s t₁ uid).1.lastCopyTime = t₁ := by
      simp [handleCopy, hfirst]
    rw [handleCopy, if_pos]
    rw [h1]
    exact hrapid

/-- Witness for C4: previous copy at time 0, first invocation at 1000,
second at 1400. -/
theorem c4_rapid_copy_guard_witness :
    (handleCopy ⟨0, false, []⟩ 1000 "50805").2 = ["50805"] ∧
    handleCopy (handleCopy ⟨0, false, []⟩ 1000 "50805").1 1400 "50805" =
      ((handleCopy ⟨0, false, []⟩ 1000 "50805").1, []) :=
  c4_rapid_copy_guard ⟨0, false, []⟩ 1000 1400 "50805" (by decide) (by decide)

/-- **C5.** After a successful copy at time `t` (with no revert already
pending), `isCopied` is `true` and exactly one revert is pending, at
`t + 500`: no timer fires at any other time, firing at `t + 500` reverts
`isCopied` to `false` and leaves nothing pending, and a guarded invocation
at any `t'` less than 500 ms after `t` changes neither `isCopied` nor the
pending revert — the window is not extended, restarted or otherwise
altered. -/
theorem c5_copied_window (s : CopyState) (t t' : Nat) (uid : String)
    (hsucc : ¬ t - s.lastCopyTime < 500) (hempty : s.pendingReverts = [])
    (hrapid : t' - t < 500) :
    (handleCopy s t uid).1.isCopied = true ∧
    (handleCopy s t uid).1.pendingReverts = [t + 500] ∧
    (∀ u : Nat, u ≠ t + 500 → fireRevert (handleCopy s t uid).1 u = (handleCopy s t uid).1) ∧
    (fireRevert (handleCopy s t uid).1 (t + 500)).isCopied = false ∧
    (fireRevert (handleCopy s t uid).1 (t + 500)).pendingReverts = [] ∧
    handleCopy (handleCopy s t uid).1 t' uid = ((handleCopy s t uid).1, []) := by
  have hstate : (handleCopy s t uid).1 =
      ⟨t, true, [t + 500]⟩ := by
    simp [handleCopy, hsucc, hempty]
  refine ⟨?_, ?_, ?_, ?_, ?_, ?_⟩
  · rw [hstate]
  · rw [hstate]
  · intro u hu
    rw [hstate]
    simp [fireRevert, hu]
  · rw [hstate]
    simp [fireRevert]
  · rw [hstate]
    simp [fireRevert]
  · rw [hstate, handleCopy]
    rw [if_pos]
    exact hrapid

/-- Witness for C5: previous copy at time 0, successful copy at 1000 with
empty timer queue, guarded attempt at 1300. -/
theorem c5_copied_window_witness :
    (handleCopy ⟨0, false, []⟩ 1000 "50805").1.isCopied = true ∧
    (fireRevert (handleCopy ⟨0, false, []⟩ 1000 "50805").1 1500).isCopied = false := by
  have h := c5_copied_window ⟨0, false, []⟩ 1000 1300 "50805" (by decide) rfl (by decide)
  exact ⟨h.1, h.2.2.2.1⟩

/-! ### PopupCourseBlock: settings subscriptions

Embeds the mount `useEffect` of the two `PopupCourseBlock` variants
(`PopupCourseBlock.tsx` lines 44-76 and 228-250) against a model of the
external `OptionsStore`: `listen(key, cb)` registers a listener and
returns its handle, `removeListener(handle)` removes it, and a
settings-change notification for a key runs every listener registered for
that key. The first variant registers listeners `l1` (for
`enableCourseStatusChips`) and `l2` (for `enableTimeAndLocationInPopup`)
and its cleanup removes both; the second variant registers only `l1` and
its cleanup removes only it.
-/

/-- The two observable display settings. -/
inductive SettingKey
  | enableCourseStatusChips
  | enableTimeAndLocationInPopup
deriving DecidableEq, Repr

/-- A listener registered in the `OptionsStore`: its handle and the
setting key it watches. Each listener of this component writes the new
value into the component state field named by its key. -/
structure Listener where
  handle : Nat
  key : SettingKey
deriving DecidableEq, Repr

/-- The component's local settings state (`useState` pair; the variant
component only ever reads the first field). -/
structure SettingsState where
  enableCourseStatusChips : Bool
  enableTimeAndLocationInPopup : Bool
deriving DecidableEq, Repr

/-- The store-and-component world: the listeners currently registered in
the `OptionsStore`, the component's local state, and the next fresh
listener handle. -/
structure World where
  listeners : List Listener
  comp : SettingsState
  nextHandle : Nat
deriving DecidableEq, Repr

/-- `OptionsStore.listen(key, cb)`: registers a listener and returns its
handle. -/
def listen (w : World) (k : SettingKey) : World × Nat :=
  ({ w with
      listeners := w.listeners ++ [⟨w.nextHandle, k⟩],
      nextHandle := w.nextHandle + 1 }, w.nextHandle)

/-- `OptionsStore.removeListener(handle)`. -/
def removeListener (w : World) (h : Nat) : World :=
  { w with listeners := w.listeners.filter (fun l => l.handle != h) }

/-- The mount effect of the main `PopupCourseBlock`: registers `l1` for
`enableCourseStatusChips` and `l2` for `enableTimeAndLocationInPopup`;
returns the world and the two handles held by the cleanup closure. -/
def mountMain (w : World) : World × Nat × Nat :=
  let p1 := listen w .enableCourseStatusChips
  let p2 := listen p1.1 .enableTimeAndLocationInPopup
  (p2.1, p1.2, p2.2)

/-- The cleanup of the main variant's effect:
`removeListener(l1); removeListener(l2)`. -/
def unmountMain (w : World) (l1 l2 : Nat) : World :=
  removeListener (removeListener w l1) l2

/-- The mount effect of the drag-handle-props `PopupCourseBlock` variant:
registers only `l1`, for `enableCourseStatusChips`. -/
def mountVariant (w : World) : World × Nat :=
  listen w .enableCourseStatusChips

/-- The cleanup of the variant's effect: `removeListener(l1)`. -/
def unmountVariant (w : World) (l1 : Nat) : World :=
  removeListener w l1

/-- The state update performed by this component's listener for a key:
`setEnableCourseStatusChips(newValue)` respectively
`setEnableTimeAndLocationInPopup(newValue)`. -/
def applyListener (c : SettingsState) (k : SettingKey) (v : Bool) : SettingsState :=
  match k with
  | .enableCourseStatusChips => { c with enableCourseStatusChips := v }
  | .enableTimeAndLocationInPopup => { c with enableTimeAndLocationInPopup := v }

/-- A settings-change notification: every listener registered for the
changed key runs, in registration order. -/
def notify (w : World) (k : SettingKey) (v : Bool) : World :=
  { w with
    comp := w.listeners.foldl
      (fun c l => if l.key = k then applyListener c l.key v else c) w.comp }

/-- Counterexample to **C7** as stated: the drag-handle-props variant of
`PopupCourseBlock` does not subscribe to both display settings — mounting
it in a fresh store registers no listener for
`enableTimeAndLocationInPopup`. -/
theorem c7_counterexample_variant_single_subscription :
    ¬ ∃ l ∈ (mountVariant ⟨[], ⟨false, false⟩, 0⟩).1.listeners,
      l.key = SettingKey.enableTimeAndLocationInPopup := by
  decide

/-- **C7 (amended).** The main `PopupCourseBlock` subscribes on mount to
both display settings and updates the corresponding local state on each
change notification; the drag-handle-props variant subscribes only to
`enableCourseStatusChips`. In both variants the unmount cleanup removes
exactly the listeners the mount registered (1:1 pairing, the store returns
to empty), and after unmount a settings-change notification updates no
component state. -/
theorem c7_subscription_lifecycle (w : World) (hempty : w.listeners = []) :
    ((mountMain w).1.listeners =
      [⟨w.nextHandle, .enableCourseStatusChips⟩,
       ⟨w.nextHandle + 1, .enableTimeAndLocationInPopup⟩] ∧
     (∀ v, (notify (mountMain w).1 .enableCourseStatusChips v).comp.enableCourseStatusChips = v) ∧
     (∀ v, (notify (mountMain w).1 .enableTimeAndLocationInPopup v).comp.enableTimeAndLocationInPopup = v) ∧
     (unmountMain (mountMain w).1 (mountMain w).2.1 (mountMain w).2.2).listeners = [] ∧
     (∀ k v, (notify (unmountMain (mountMain w).1 (mountMain w).2.1 (mountMain w).2.2) k v).comp =
       (unmountMain (mountMain w).1 (mountMain w).2.1 (mountMain w).2.2).comp)) ∧
    ((mountVariant w).1.listeners = [⟨w.nextHandle, .enableCourseStatusChips⟩] ∧
     (∀ v, (notify (mountVariant w).1 .enableCourseStatusChips v).comp.enableCourseStatusChips = v) ∧
     (unmountVariant (mountVariant w).1 (mountVariant w).2).listeners = [] ∧
     (∀ k v, (notify (unmountVariant (mountVariant w).1 (mountVariant w).2) k v).comp =
       (unmountVariant (mountVariant w).1 (mountVariant w).2).comp)) := by
  obtain ⟨ls, c, nh⟩ := w
  simp only [World.listeners] at hempty
  subst hempty
  have hne : ((nh + 1 != nh)) = true := by
    simp [bne_iff_ne]
  refine ⟨⟨?_, ?_, ?_, ?_, ?_⟩, ?_, ?_, ?_, ?_⟩ <;>
    simp [mountMain, mountVariant, unmountMain, unmountVariant, listen,
      removeListener, notify, applyListener, hne]

/-- Witness for C7 (amended) at the fresh empty world. -/
theorem c7_subscription_lifecycle_witness :
    (mountMain ⟨[], ⟨false, false⟩, 0⟩).1.listeners =
      [⟨0, .enableCourseStatusChips⟩, ⟨1, .enableTimeAndLocationInPopup⟩] ∧
    (unmountMain (mountMain ⟨[], ⟨false, false⟩, 0⟩).1
      (mountMain ⟨[], ⟨false, false⟩, 0⟩).2.1
      (mountMain ⟨[], ⟨false, false⟩, 0⟩).2.2).listeners = [] := by
  have h := c7_subscription_lifecycle ⟨[], ⟨false, false⟩, 0⟩ rfl
  exact ⟨h.1.1, h.1.2.2.2.1⟩

/-! ### PopupCourseBlock: render conditions and click handler -/

/-- Modelled from the spec: the external `Status` enum of `Course`
(`@shared/types/Course`, owned outside this repository), "status enum
(e.g., OPEN)" — the open status plus the non-open values the status chip
distinguishes. -/
inductive Status
  | OPEN
  | CLOSED
  | WAITLISTED
  | CANCELLED
deriving DecidableEq, Repr

/-- The node kinds the popup course block can render, abstracting the JSX
tree of the main `PopupCourseBlock` return (lines 100-185). -/
inductive Node
  | dragHandle
  | titleText
  | timeLocation
  | statusChip
  | copyButton
deriving DecidableEq, Repr

/-- The conditional skeleton of the main `PopupCourseBlock` render: the
time/location rows appear under `enableTimeAndLocationInPopup && ...`, and
the status chip under
`enableCourseStatusChips && course.status !== Status.OPEN && ...`. -/
def renderPopupCourseBlock (settings : SettingsState) (status : Status) : List Node :=
  [.dragHandle, .titleText] ++
  (if settings.enableTimeAndLocationInPopup then [.timeLocation] else []) ++
  (if settings.enableCourseStatusChips ∧ status ≠ Status.OPEN then [.statusChip] else []) ++
  [.copyButton]

/-- **C8.** The status chip is rendered if and only if
`enableCourseStatusChips` is true and the course status is not `OPEN`. -/
theorem c8_status_chip_iff (settings : SettingsState) (status : Status) :
    Node.statusChip ∈ renderPopupCourseBlock settings status ↔
      settings.enableCourseStatusChips = true ∧ status ≠ Status.OPEN := by
  obtain ⟨a, b⟩ := settings
  cases a <;> cases b <;> cases status <;> decide

/-- The effects of `handleClick` of `PopupCourseBlock` (both variants,
lines 82-85 and 256-259), in execution order: the call
`background.switchToCalendarTab({ uniqueId: course.uniqueId })`, its
awaited resolution, then `window.close()` — the `await` places the
resolution before any later effect. -/
inductive ClickEffect
  | switchToCalendarTabCall (uniqueId : Nat)
  | switchToCalendarTabResolved (uniqueId : Nat)
  | windowClose
deriving DecidableEq, Repr

/-- The trace of `handleClick` for a course with the given `uniqueId`. -/
def handleClick (uniqueId : Nat) : List ClickEffect :=
  [.switchToCalendarTabCall uniqueId, .switchToCalendarTabResolved uniqueId,
   .windowClose]

/-- **C9.** Every click invokes the external switch-to-calendar-tab action
with the course's `uniqueId`, and the popup close happens strictly after
that call resolves: the trace splits around the resolution, with the call
before it and the (single) window close only after it. -/
theorem c9_close_after_switch (uniqueId : Nat) :
    ∃ pre post : List ClickEffect,
      handleClick uniqueId =
        pre ++ [ClickEffect.switchToCalendarTabResolved uniqueId] ++ post ∧
      ClickEffect.switchToCalendarTabCall uniqueId ∈ pre ∧
      ClickEffect.windowClose ∉ pre ∧
      post = [ClickEffect.windowClose] := by
  refine ⟨[ClickEffect.switchToCalendarTabCall uniqueId],
    [ClickEffect.windowClose], rfl, ?_, ?_, rfl⟩
  · simp
  · simp

end UTRP
